import Mathlib

/-!
Shallow embedding of the core logic of `extract_listings.py` (menu scraper
and crawlability analyzer): the line classifier and item segmenter inside
`scrape_page`, the pagination crawl loop of `scrape_menu`, the JS-heaviness
detector `is_javascript_heavy`, and `calculate_crawlability_score`.

Strings are Lean `String`s; the Python regexes are modelled by explicit
character scans that reproduce `re.search` / `re.match` semantics (leftmost
match, greedy quantifiers with the backtracking that the concrete patterns
admit) for the two concrete patterns in the source.
-/

namespace Crawling

/-- Character class for the marker letter `L`/`l` of the currency pattern. -/
def isMarkerL (c : Char) : Bool := c == 'L' || c == 'l'

/-- Character class for the marker letter `E`/`e` of the currency pattern. -/
def isMarkerE (c : Char) : Bool := c == 'E' || c == 'e'

/-- ASCII portion of Python's regex class `\s`. -/
def isWsChar (c : Char) : Bool :=
  c == ' ' || c == '\t' || c == '\n' || c == '\r' || c == '\x0b' || c == '\x0c'

/-- Matches the regex fragment `L\.?E` (case-insensitive) at the head of the
character list, returning the remaining characters after the `E` on success.
The greedy optional dot backtracks exactly as in the Python engine: `L.` is
tried first and must be followed by `E`; otherwise `L` must be followed
directly by `E` (a dot is never an `E`, so the fallback fails whenever the
dot branch consumed a dot and then failed). -/
def matchMarker : List Char → Option (List Char)
  | [] => none
  | c :: rest =>
    if isMarkerL c then
      match rest with
      | '.' :: e :: r => if isMarkerE e then some r else none
      | e :: r => if isMarkerE e then some r else none
      | [] => none
    else none

/-- Leftmost search for `(\d+)\s*(L\.?E\.?)` in a character list, returning the
digit group. This is the digit group of
`re.search(r"(Price\s*:\s*|)(\d+)\s*(L\.?E\.?)", line, re.IGNORECASE)`:
the optional `Price\s*:\s*` prefix contains no digits, so the digits the
engine extracts are always those of the leftmost digit run that is followed
(after optional whitespace) by the currency marker; the greedy `\d+` can only
match the maximal digit run at a position, since giving back a digit would
require `\s*` or `L` to match a digit. -/
def searchPriceAux : List Char → Option String
  | [] => none
  | c :: rest =>
    if c.isDigit then
      let run := (c :: rest).takeWhile Char.isDigit
      let after := ((c :: rest).dropWhile Char.isDigit).dropWhile isWsChar
      match matchMarker after with
      | some _ => some (String.mk run)
      | none => searchPriceAux rest
    else searchPriceAux rest

/-- Digit group of `price_pattern.search(line)` (`None` when no match). -/
def priceSearch (line : String) : Option String :=
  searchPriceAux line.data

/-- Digit group of `price_only_pattern.match(line)` for the anchored pattern
`^(\d+)\s*(L\.?E\.?)\.?$`: the whole line is digits, optional whitespace, the
currency marker, then at most two dots (one from the marker group's optional
dot, one from the trailing `\.?`). -/
def priceOnlyMatch (line : String) : Option String :=
  let s := line.data
  let run := s.takeWhile Char.isDigit
  if run.isEmpty then none
  else
    match matchMarker ((s.dropWhile Char.isDigit).dropWhile isWsChar) with
    | some r =>
      if r == [] || r == ['.'] || r == ['.', '.'] then some (String.mk run) else none
    | none => none

/-- The price digits the segmenter uses for a line:
`price_match.group(2) if price_match else price_only_match.group(1)`, guarded
by `if price_match or price_only_match`. `none` means the line is not a price
line at all. -/
def priceDigitsOfLine (line : String) : Option String :=
  match priceSearch line with
  | some d => some d
  | none => priceOnlyMatch line

/-- Python `str.lower()` restricted to ASCII case mapping. -/
def lowerStr (s : String) : String := String.mk (s.data.map Char.toLower)

/-- The noise-token test `line.lower() in ["price", "l.e", "le"]`. -/
def isNoiseLine (line : String) : Bool :=
  lowerStr line == "price" || lowerStr line == "l.e" || lowerStr line == "le"

/-- The `current_item` dictionary of the segmenter: each field is present
(`some`) or absent (`none`), mirroring key presence in the Python dict. -/
structure PendingItem where
  name : Option String := none
  description : Option String := none
  price : Option String := none
deriving Repr, DecidableEq

/-- The empty dict `{}` (falsy in Python). -/
def PendingItem.empty : PendingItem := {}

/-- A finalized row appended to `rows`:
`[category_name, it.get('name',''), it.get('description',''), it.get('price','')]`. -/
structure MenuItem where
  category : String
  name : String
  description : String
  price : String
deriving Repr, DecidableEq

/-- Conversion from a pending dict to a row, with the `.get(key, '')`
defaults of the source. -/
def toMenuItem (category : String) (p : PendingItem) : MenuItem :=
  { category := category
    name := p.name.getD ""
    description := p.description.getD ""
    price := p.price.getD "" }

/-- One iteration of the `while i < len(lines)` loop in `scrape_page`, acting
on the state `(items, current_item)`:
* a line matching either price pattern attaches `digits + " L.E"` and emits,
  when `current_item` is non-empty, else is silently consumed;
* otherwise, when a name is pending without a price, the line is appended to
  the description (space-joined);
* otherwise a non-noise line starts a fresh `{'name': line}` accumulator and
  a noise line is skipped. -/
def segStep (st : List PendingItem × PendingItem) (line : String) :
    List PendingItem × PendingItem :=
  match priceDigitsOfLine line with
  | some d =>
    if st.2 = PendingItem.empty then st
    else (st.1 ++ [{ st.2 with price := some (d ++ " L.E") }], PendingItem.empty)
  | none =>
    if st.2.name.isSome ∧ st.2.price = none then
      (st.1, { st.2 with
               description := some (st.2.description.getD "" ++ " " ++ line) })
    else if isNoiseLine line then st
    else (st.1, { name := some line, description := none, price := none })

/-- The whole segmentation loop from the initial state `([], {})`. -/
def segmentRun (lines : List String) : List PendingItem × PendingItem :=
  lines.foldl segStep ([], PendingItem.empty)

/-- The trailing flush after the loop:
`if current_item and 'price' in current_item: items.append(current_item)`. -/
def flushTail (st : List PendingItem × PendingItem) : List PendingItem :=
  if ¬ st.2 = PendingItem.empty ∧ st.2.price.isSome then st.1 ++ [st.2] else st.1

/-- Segmentation of one panel's lines: the loop followed by the flush. -/
def segmentPanel (lines : List String) : List PendingItem :=
  flushTail (segmentRun lines)

/-- Python `str.strip()` (ASCII whitespace portion): drop whitespace from
both ends. -/
def stripLine (s : String) : String :=
  String.mk (((s.data.dropWhile isWsChar).reverse.dropWhile isWsChar).reverse)

/-- The line extraction
`[line.strip() for line in body.get_text(separator="\n").splitlines() if line.strip()]`,
applied to the raw split lines of a panel body. -/
def panelLines (raw : List String) : List String :=
  (raw.map stripLine).filter (fun l => l != "")

/-- A `vc_tta-panel`: the optional raw title-span text and, when a panel body
exists, the raw lines of its rendered text (HTML parsing by BeautifulSoup is
abstracted into these pre-extracted fields). -/
structure Panel where
  title : Option String := none
  body : Option (List String) := none

/-- A fetched page as `scrape_page` consumes it: its panels in document order
and the destination of an `<a class="next">` link when one with an `href` is
present. -/
structure CrawlPage where
  panels : List Panel := []
  nextLink : Option String := none

/-- Rows contributed by one panel: skipped entirely when no body region
exists, otherwise the segmented items tagged with the category title (the
stripped title-span text, or `"Unnamed Category"`). -/
def panelRows (p : Panel) : List MenuItem :=
  match p.body with
  | none => []
  | some raw =>
    (segmentPanel (panelLines raw)).map
      (toMenuItem ((p.title.map stripLine).getD "Unnamed Category"))

/-- Rows contributed by one fetched page, panels in order. -/
def pageRows (pg : CrawlPage) : List MenuItem :=
  (pg.panels.map panelRows).flatten

/-- The recursive `scrape_page(url)` loop of `scrape_menu`. The fetch
capability returns `none` when `get_soup` does (non-success status or a
caught transport error); `rows` is the enclosing accumulator. The extra fuel
argument bounds the recursion depth, which the source leaves unbounded; fuel
exhaustion returns the rows accumulated so far. -/
def scrape_page (fetch : String → Option CrawlPage) :
    Nat → String → List MenuItem → List MenuItem
  | 0, _, rows => rows
  | fuel + 1, url, rows =>
    match fetch url with
    | none => rows
    | some pg =>
      let rows2 := rows ++ pageRows pg
      match pg.nextLink with
      | none => rows2
      | some nxt => scrape_page fetch fuel nxt rows2

/-- The crawl entry point `scrape_menu(base_url, ...)`: run `scrape_page` on
the base URL with an empty accumulator. -/
def scrape_menu (fetch : String → Option CrawlPage) (fuel : Nat)
    (base : String) : List MenuItem :=
  scrape_page fetch fuel base []

/-- The heuristic `calculate_crawlability_score`: sequential conditional
increments starting from 0; a Python list is truthy exactly when non-empty. -/
def calculate_crawlability_score (has_robots : Bool)
    (crawl_delays sitemaps : List String) (js_heavy : Bool) : Nat :=
  let score := 0
  let score := if has_robots then score + 25 else score
  let score := if crawl_delays ≠ [] then score + 15 else score
  let score := if sitemaps ≠ [] then score + 30 else score
  let score := if ¬ js_heavy then score + 30 else score
  score

/-- The detector `is_javascript_heavy`, over the multiset of element tag
names in the parsed document: more than 10 `script` elements, or no element
from `{div, p, span, table}` at all, makes the page JS-heavy. -/
def is_javascript_heavy (tags : List String) : Bool :=
  if 10 < (tags.filter (fun t => t == "script")).length then true
  else if (tags.filter
      (fun t => t == "div" || t == "p" || t == "span" || t == "table")).isEmpty then
    true
  else false

/-! Helper lemmas shared by the claim theorems. -/

/-- Equation lemma for `segStep` on a line matched by a price pattern. -/
theorem segStep_price (st : List PendingItem × PendingItem) (line d : String)
    (h : priceDigitsOfLine line = some d) :
    segStep st line =
      if st.2 = PendingItem.empty then st
      else (st.1 ++ [{ st.2 with price := some (d ++ " L.E") }], PendingItem.empty) := by
  simp [segStep, h]

/-- Appending the currency suffix never produces the empty string. -/
theorem append_currency_ne_empty (d : String) : d ++ " L.E" ≠ "" := by
  intro h
  have h2 := congrArg String.data h
  simp [String.data_append] at h2

/-- An emitted dict carries a non-empty name and a non-empty price. -/
def GoodItem (p : PendingItem) : Prop :=
  (∃ n, p.name = some n ∧ n ≠ "") ∧ (∃ s, p.price = some s ∧ s ≠ "")

/-- Loop invariant of the segmentation fold: all emitted items are good, and
the accumulator is either the empty dict or has a non-empty name and no
price yet. -/
def SegInv (st : List PendingItem × PendingItem) : Prop :=
  (∀ p ∈ st.1, GoodItem p) ∧
    (st.2 = PendingItem.empty ∨
      ((∃ n, st.2.name = some n ∧ n ≠ "") ∧ st.2.price = none))

theorem segStep_inv (st : List PendingItem × PendingItem) (line : String)
    (hline : line ≠ "") (h : SegInv st) : SegInv (segStep st line) := by
  obtain ⟨hitems, hcur⟩ := h
  unfold segStep
  cases hpd : priceDigitsOfLine line with
  | some d =>
    by_cases he : st.2 = PendingItem.empty
    · simpa [he] using ⟨hitems, hcur⟩
    · simp only [he, if_false]
      refine ⟨?_, Or.inl rfl⟩
      intro p hp
      rcases List.mem_append.mp hp with h1 | h2
      · exact hitems p h1
      · rcases hcur with hc | ⟨⟨n, hn, hne⟩, _⟩
        · exact absurd hc he
        · have hp2 : p = { st.2 with price := some (d ++ " L.E") } := by
            simpa using h2
          subst hp2
          exact ⟨⟨n, hn, hne⟩, ⟨d ++ " L.E", rfl, append_currency_ne_empty d⟩⟩
  | none =>
    by_cases hb : st.2.name.isSome ∧ st.2.price = none
    · rw [if_pos hb]
      refine ⟨hitems, Or.inr ?_⟩
      rcases hcur with hc | ⟨⟨n, hn, hne⟩, hpr⟩
      · rw [hc] at hb
        simp [PendingItem.empty] at hb
      · exact ⟨⟨n, hn, hne⟩, hpr⟩
    · rw [if_neg hb]
      by_cases hn : isNoiseLine line
      · rw [if_pos hn]
        exact ⟨hitems, hcur⟩
      · rw [if_neg hn]
        exact ⟨hitems, Or.inr ⟨⟨line, rfl, hline⟩, rfl⟩⟩

theorem foldl_segStep_inv (lines : List String)
    (hl : ∀ l ∈ lines, l ≠ "") (st : List PendingItem × PendingItem)
    (h : SegInv st) : SegInv (lines.foldl segStep st) := by
  induction lines generalizing st with
  | nil => exact h
  | cons a as ih =>
    simp only [List.foldl_cons]
    exact ih (fun l hm => hl l (List.mem_cons_of_mem a hm)) _
      (segStep_inv st a (hl a (List.mem_cons_self a as)) h)

theorem segmentRun_inv (lines : List String) (hl : ∀ l ∈ lines, l ≠ "") :
    SegInv (segmentRun lines) :=
  foldl_segStep_inv lines hl _ ⟨by simp, Or.inl rfl⟩

theorem segmentPanel_good (lines : List String) (hl : ∀ l ∈ lines, l ≠ "") :
    ∀ p ∈ segmentPanel lines, GoodItem p := by
  intro p hp
  have hinv := segmentRun_inv lines hl
  unfold segmentPanel flushTail at hp
  split at hp
  case isTrue hcond =>
    rcases hinv.2 with he | ⟨_, hpr⟩
    · exact absurd he hcond.1
    · rw [hpr] at hcond
      simp at hcond
  case isFalse =>
    exact hinv.1 p hp

/-! Claim theorems. -/

/-- C1: for every sequence of (non-empty) text lines, every MenuItem emitted
by the segmenter has a non-empty name and a non-empty price; an item is
emitted only with a price attached, so a pending item that never receives a
price is never emitted. -/
theorem emitted_items_have_name_and_price (lines : List String)
    (h : ∀ l ∈ lines, l ≠ "") (category : String) :
    ∀ it ∈ (segmentPanel lines).map (toMenuItem category),
      it.name ≠ "" ∧ it.price ≠ "" := by
  intro it hit
  obtain ⟨p, hp, rfl⟩ := List.mem_map.mp hit
  obtain ⟨⟨n, hn, hne⟩, ⟨s, hs, hse⟩⟩ := segmentPanel_good lines h p hp
  simp [toMenuItem, hn, hs]
  exact ⟨hne, hse⟩

theorem emitted_items_have_name_and_price_witness :
    (∀ l ∈ ["Soup", "Salad", "40 L.E"], l ≠ "") ∧
      ∀ it ∈ (segmentPanel ["Soup", "Salad", "40 L.E"]).map (toMenuItem "Menu"),
        it.name ≠ "" ∧ it.price ≠ "" :=
  ⟨by decide,
    emitted_items_have_name_and_price ["Soup", "Salad", "40 L.E"] (by decide) "Menu"⟩

/-- C2, counterexample: on `["Soup", "Salad", "40 L.E"]` the single emitted
item is named "Soup", not "Salad" — the second name-only line does not
replace the pending name. -/
theorem soup_salad_name_not_salad :
    ¬ ((segmentPanel ["Soup", "Salad", "40 L.E"]).map
        (fun p => p.name.getD "") = ["Salad"]) := by
  decide

/-- C2, amended: `["Soup", "Salad", "40 L.E"]` yields exactly one item with
name "Soup", description " Salad" and price "40 L.E" — a second name-only
line arriving while an item with a name and no price is pending is appended
to that item's description rather than replacing its name. -/
theorem soup_salad_second_line_becomes_description :
    segmentPanel ["Soup", "Salad", "40 L.E"] =
      [{ name := some "Soup", description := some " Salad",
         price := some "40 L.E" }] := by
  decide

/-- C3: `["Grilled Chicken", "Served with rice", "120 L.E"]` yields exactly
one item with name "Grilled Chicken", description " Served with rice"
(space-joined onto the empty description) and price "120 L.E". -/
theorem grilled_chicken_segmentation :
    (segmentPanel ["Grilled Chicken", "Served with rice", "120 L.E"]).map
        (toMenuItem "Mains") =
      [{ category := "Mains", name := "Grilled Chicken",
         description := " Served with rice", price := "120 L.E" }] := by
  decide

/-- C4, counterexample: a NoiseToken line does not always leave the
accumulator unchanged — when an item with a name and no price is pending,
the noise line "le" is appended to its description. -/
theorem noise_line_changes_pending_accumulator :
    segStep ([], { name := some "Soup", description := none, price := none }) "le" ≠
      ([], { name := some "Soup", description := none, price := none }) := by
  decide

/-- C4, amended: a NoiseToken line (matching neither price pattern) leaves
the accumulator unchanged whenever no named, price-less item is pending (in
particular on the empty accumulator); when such an item is pending the noise
line is instead appended to its description. -/
theorem noise_line_unchanged_without_pending_name (line : String)
    (items : List PendingItem) (cur : PendingItem)
    (h1 : isNoiseLine line = true) (h2 : priceDigitsOfLine line = none)
    (h3 : ¬ (cur.name.isSome = true ∧ cur.price = none)) :
    segStep (items, cur) line = (items, cur) := by
  simp only [segStep, h2]
  rw [if_neg h3, if_pos h1]

theorem noise_line_unchanged_without_pending_name_witness :
    isNoiseLine "le" = true ∧ priceDigitsOfLine "le" = none ∧
      ¬ (PendingItem.empty.name.isSome = true ∧ PendingItem.empty.price = none) ∧
      segStep ([], PendingItem.empty) "le" = ([], PendingItem.empty) :=
  ⟨by decide, by decide, by decide,
    noise_line_unchanged_without_pending_name "le" [] PendingItem.empty
      (by decide) (by decide) (by decide)⟩

/-- C5: a price line arriving on an empty accumulator (no preceding name) is
consumed without emitting anything and leaves the accumulator empty, so a
sequence starting with an orphan price segments exactly like the rest; in
particular `["150 L.E"]` yields zero items. -/
theorem orphan_price_dropped (l d : String) (rest : List String)
    (h : priceDigitsOfLine l = some d) :
    segStep ([], PendingItem.empty) l = ([], PendingItem.empty) ∧
      segmentPanel (l :: rest) = segmentPanel rest := by
  have hstep : segStep ([], PendingItem.empty) l = ([], PendingItem.empty) := by
    rw [segStep_price _ _ _ h, if_pos rfl]
  refine ⟨hstep, ?_⟩
  unfold segmentPanel segmentRun
  rw [List.foldl_cons, hstep]

theorem orphan_price_dropped_witness :
    priceDigitsOfLine "150 L.E" = some "150" ∧ segmentPanel ["150 L.E"] = [] :=
  ⟨by decide,
    ((orphan_price_dropped "150 L.E" "150" [] (by decide)).2).trans (by decide)⟩

/-- Closed form of the score as a sum of four independent contributions. -/
theorem score_formula (h : Bool) (c s : List String) (j : Bool) :
    calculate_crawlability_score h c s j =
      (if h then 25 else 0) + (if c ≠ [] then 15 else 0) +
        (if s ≠ [] then 30 else 0) + (if ¬ j then 30 else 0) := by
  unfold calculate_crawlability_score
  cases h <;> cases j <;> by_cases hc : c = [] <;> by_cases hs : s = [] <;>
    simp [hc, hs]

/-- C6: the crawlability score is the sum of independent contributions — 25
for robots.txt, 15 for a non-empty crawl-delay list, 30 for a non-empty
sitemap list, 30 for not being JS-heavy — with no interaction terms. -/
theorem score_additive (h : Bool) (c s : List String) (j : Bool) :
    calculate_crawlability_score h c s j =
      (if h then 25 else 0) + (if c ≠ [] then 15 else 0) +
        (if s ≠ [] then 30 else 0) + (if ¬ j then 30 else 0) :=
  score_formula h c s j

/-- C7: the score is monotone in each of its four inputs separately (flipping
any one input towards present / not JS-heavy never decreases it) and always
lies in [0, 100]. -/
theorem score_monotone_and_bounded :
    (∀ c s j, calculate_crawlability_score false c s j ≤
      calculate_crawlability_score true c s j) ∧
    (∀ h c s j, calculate_crawlability_score h [] s j ≤
      calculate_crawlability_score h c s j) ∧
    (∀ h c s j, calculate_crawlability_score h c [] j ≤
      calculate_crawlability_score h c s j) ∧
    (∀ h c s, calculate_crawlability_score h c s true ≤
      calculate_crawlability_score h c s false) ∧
    (∀ h c s j, 0 ≤ calculate_crawlability_score h c s j ∧
      calculate_crawlability_score h c s j ≤ 100) := by
  refine ⟨fun c s j => ?_, fun h c s j => ?_, fun h c s j => ?_,
    fun h c s => ?_, fun h c s j => ⟨Nat.zero_le _, ?_⟩⟩ <;>
    simp only [score_formula] <;> split_ifs <;> simp_all

/-- C8: the JS-heaviness verdict is true exactly when the page has more than
10 script elements or no element from {div, p, span, table}; a page with
exactly 10 script elements and at least one such content element is not
JS-heavy. -/
theorem js_heavy_iff (tags : List String) :
    (is_javascript_heavy tags = true ↔
      10 < (tags.filter (fun t => t == "script")).length ∨
        tags.filter (fun t => t == "div" || t == "p" || t == "span" || t == "table")
          = []) ∧
    ((tags.filter (fun t => t == "script")).length = 10 →
      tags.filter (fun t => t == "div" || t == "p" || t == "span" || t == "table")
          ≠ [] →
      is_javascript_heavy tags = false) := by
  unfold is_javascript_heavy
  constructor
  · split_ifs with h1 h2
    · simp [h1]
    · simp [h1, List.isEmpty_iff.mp h2]
    · simp only [List.isEmpty_iff] at h2
      simp [h1, h2]
  · intro hc hn
    split_ifs with h1 h2
    · omega
    · exact absurd (List.isEmpty_iff.mp h2) hn
    · rfl

theorem js_heavy_iff_witness :
    (let tags := ["script", "script", "script", "script", "script", "script",
      "script", "script", "script", "script", "div"]
    (tags.filter (fun t => t == "script")).length = 10 ∧
      tags.filter (fun t => t == "div" || t == "p" || t == "span" || t == "table")
          ≠ [] ∧
      is_javascript_heavy tags = false) :=
  ⟨by decide, by decide, (js_heavy_iff _).2 (by decide) (by decide)⟩

/-- C9: when the fetch of a page fails (`get_soup` returns nothing), the
crawl stops and returns exactly the rows accumulated from earlier pages; in
particular a failed fetch of the start page yields the empty item sequence,
with no exception escaping the crawl boundary (the crawl is a total
function). -/
theorem failed_fetch_returns_accumulated (fetch : String → Option CrawlPage)
    (fuel : Nat) (url : String) (rows : List MenuItem)
    (h : fetch url = none) :
    scrape_page fetch (fuel + 1) url rows = rows ∧
      scrape_menu fetch (fuel + 1) url = [] := by
  constructor
  · simp [scrape_page, h]
  · simp [scrape_menu, scrape_page, h]

theorem failed_fetch_returns_accumulated_witness :
    ((fun _ : String => (none : Option CrawlPage)) "menu-m/page/2" = none) ∧
      scrape_page (fun _ => none) 1 "menu-m/page/2"
          [{ category := "Menu", name := "Soup", description := "",
             price := "40 L.E" }] =
        [{ category := "Menu", name := "Soup", description := "",
           price := "40 L.E" }] ∧
      scrape_menu (fun _ => none) 1 "menu-m/page/2" = [] :=
  ⟨rfl, (failed_fetch_returns_accumulated _ 0 _ _ rfl).1,
    (failed_fetch_returns_accumulated (fun _ => none) 0 "menu-m/page/2" [] rfl).2⟩

/-- C10: a line matched by the general price pattern is consumed entirely as
a price event: the extracted digits are attached as `"<digits> L.E"` to the
pending item when one exists (emitting it and resetting the accumulator),
nothing happens when none exists, and no other text of the line reaches any
name or description. -/
theorem price_line_consumed_entirely (line d : String)
    (items : List PendingItem) (cur : PendingItem)
    (h : priceSearch line = some d) :
    (cur = PendingItem.empty → segStep (items, cur) line = (items, cur)) ∧
      (cur ≠ PendingItem.empty →
        segStep (items, cur) line =
          (items ++ [{ cur with price := some (d ++ " L.E") }],
            PendingItem.empty)) := by
  have hpd : priceDigitsOfLine line = some d := by
    unfold priceDigitsOfLine
    rw [h]
  constructor
  · intro he
    rw [segStep_price _ _ _ hpd, if_pos he]
  · intro hne
    rw [segStep_price _ _ _ hpd, if_neg hne]

theorem price_line_consumed_entirely_witness :
    priceSearch "Roast Beef 85 LE on Fridays" = some "85" ∧
      segStep
          ([], { name := some "Roast Beef", description := none, price := none })
          "Roast Beef 85 LE on Fridays" =
        ([{ name := some "Roast Beef", description := none,
            price := some "85 L.E" }], PendingItem.empty) :=
  ⟨by decide, by
    have h := (price_line_consumed_entirely "Roast Beef 85 LE on Fridays" "85" []
      { name := some "Roast Beef", description := none, price := none }
      (by decide)).2 (by decide)
    simpa using h⟩

end Crawling
